import Mathlib

/-!
Verification development for the fusion-producer message extraction and
filtering pipeline.  The Rust source is shallowly embedded: machine
integers become `Nat` (with explicit `% 2^w` where overflow matters),
fallible operations return `Except String`, and the process-wide
`OnceLock` registry becomes explicit state passing over
`Option (List Parser)`.  External library behaviour that the code relies
on (chrono timestamp conversion, the tokio broadcast channel) is
embedded from the libraries' documented contracts.
-/

namespace FusionProducer

/-- Message type tags, from `src/types/mod.rs` (`enum MessageType`). -/
inductive MessageType where
  | InternalInbound
  | InternalOutbound
  | ExternalInbound
  | ExternalOutbound
  deriving DecidableEq, Repr

instance : BEq MessageType := ⟨fun a b => decide (a = b)⟩

/-- Header kind of a message, from `ton_block::CommonMsgInfo` (the payloads
are irrelevant to the filter logic and are dropped). -/
inductive CommonMsgInfo where
  | IntMsgInfo
  | ExtInMsgInfo
  | ExtOutMsgInfo
  deriving DecidableEq, Repr

/-- Internal message address, from `ton_block::MsgAddressInt`: a workchain
id and a 256-bit account id (modelled as `Nat`). -/
structure MsgAddressInt where
  workchain : Int
  address : Nat
  deriving DecidableEq, Repr

instance : BEq MsgAddressInt := ⟨fun a b => decide (a = b)⟩

/-- Decoded message, from `ton_block::Message`: its header kind, whether it
has a body, and its source/destination addresses (`src_ref`/`dst_ref`,
absent for external endpoints). -/
structure Message where
  header : CommonMsgInfo
  has_body : Bool
  src : Option MsgAddressInt
  dst : Option MsgAddressInt
  deriving DecidableEq, Repr

/-- The inbound-message slot of a transaction: the cell hash and the
fallible decoding of the enclosed message (`in_msg.hash()` /
`in_msg.read_struct()`). -/
structure InMsg where
  hash : Nat
  read_struct : Except String Message
  deriving Repr

/-- Decoded transaction, from `ton_block::Transaction`, restricted to the
fields the pipeline touches: `now` (u32 seconds), the optional inbound
message slot, the ordered outbound slots (each slot yields the message
cell's representation hash and the fallibly decoded message, mirroring
`slice.reference(0)` / `construct_from_cell` in `iterate_slices`), and the
fallible representation hash `tx.hash()`. -/
structure Transaction where
  now : Nat
  in_msg : Option InMsg
  out_msgs : List (Except String (Nat × Message))
  hash : Except String Nat
  deriving Repr

/-- `message_type_from` in `src/types/mod.rs`. -/
def message_type_from (msg : CommonMsgInfo) (is_in_message : Bool) : MessageType :=
  match msg with
  | .IntMsgInfo => if is_in_message then .InternalInbound else .InternalOutbound
  | .ExtInMsgInfo => .ExternalInbound
  | .ExtOutMsgInfo => .ExternalOutbound

/-- `FilteredMessage` in `src/types/mod.rs`. -/
structure FilteredMessage where
  name : String
  message_hash : Nat
  message : Message
  message_type : MessageType
  tx : Transaction
  index_in_transaction : Nat
  contract_name : String
  filter_name : String
  deriving Repr

/-- `SerializeMessage` in `src/types/mod.rs`. -/
structure SerializeMessage where
  message : Message
  message_hash : Nat
  message_type : MessageType
  block_id : Nat
  transaction_id : Nat
  transaction_timestamp : Nat
  index_in_transaction : Nat
  contract_name : String
  filter_name : String
  deriving Repr

/-- `From<FilteredMessage> for SerializeMessage` in `src/types/mod.rs`:
`transaction_id = tx.hash().unwrap_or_default()`, `block_id` left at its
default (zero) and overridden by the block handler. -/
def SerializeMessage.from_filtered (msg : FilteredMessage) : SerializeMessage :=
  { message := msg.message
    message_hash := msg.message_hash
    message_type := msg.message_type
    block_id := 0
    transaction_id := (msg.tx.hash.toOption).getD 0
    transaction_timestamp := msg.tx.now
    index_in_transaction := msg.index_in_transaction
    contract_name := msg.contract_name
    filter_name := msg.filter_name }

/-- `AddressOrCodeHash` in `src/filter/config.rs`. -/
inductive AddressOrCodeHash where
  | Address (address : MsgAddressInt)
  | CodeHash (code_hash : Nat)
  deriving DecidableEq, Repr

/-- `MessageFilter` in `src/filter/config.rs`. -/
structure MessageFilter where
  message_name : String
  message_type : MessageType
  deriving DecidableEq, Repr

/-- `FilterEntry` in `src/filter/config.rs`. -/
structure FilterEntry where
  name : String
  sender : Option AddressOrCodeHash
  receiver : Option AddressOrCodeHash
  message : Option MessageFilter
  deriving DecidableEq, Repr

/-- `FilterType` in `src/filter/config.rs`. -/
inductive FilterType where
  | Contract (name : String) (abi_path : String)
  | NativeTransfer
  | AnyMessage
  deriving DecidableEq, Repr

/-- `FilterRecord` in `src/filter/config.rs`. -/
structure FilterRecord where
  filter_type : FilterType
  entries : List FilterEntry
  deriving Repr

/-- `FilterConfig` in `src/filter/config.rs`. -/
structure FilterConfig where
  message_filters : List FilterRecord
  deriving Repr

/-- Account state, from `ton_block::Account` as used by `match_code_hash`:
only `get_code_hash()` is consulted. -/
structure Account where
  get_code_hash : Option Nat

/-- A shard-account entry whose enclosed account is decoded fallibly
(`account.read_account()`). -/
structure ShardAccount where
  read_account : Except String Account

/-- The shard state's account dictionary: lookup by account id
(`shard_accounts.account(&address)`), itself fallible. -/
structure ShardAccounts where
  account : Nat → Except String (Option ShardAccount)

/-- `ShardStateStuff` as used by the filter: `state.state().read_accounts()`
collapsed into one fallible accessor. -/
structure ShardStateStuff where
  read_accounts : Except String ShardAccounts

/-- `match_code_hash` in `src/filter/mod.rs` lines 20-38: read the shard
accounts, look the account up by its account id; absent account yields
`Ok(false)`; otherwise decode the account and compare its code hash
(`get_code_hash().map(|h| h == filter_hash).unwrap_or(false)`). -/
def match_code_hash (state : ShardStateStuff) (filter_hash : Nat)
    (account : MsgAddressInt) : Except String Bool :=
  match state.read_accounts with
  | .error e => .error e
  | .ok shard_accounts =>
      match shard_accounts.account account.address with
      | .error e => .error e
      | .ok none => .ok false
      | .ok (some entry) =>
          match entry.read_account with
          | .error e => .error e
          | .ok acc =>
              .ok ((acc.get_code_hash.map
                (fun account_hash => account_hash == filter_hash)).getD false)

/-- `match_account_filter` in `src/filter/mod.rs` lines 41-65. -/
def match_account_filter (state : Option ShardStateStuff)
    (filter : Option AddressOrCodeHash) (value : Option MsgAddressInt) : Bool :=
  match filter, value with
  | some (.Address address), some account => address == account
  | some (.CodeHash filter_hash), some account =>
      match state with
      | some state =>
          match match_code_hash state filter_hash account with
          | .ok b => b
          | .error _ => false
      | none => false
  | some _, none => false
  | none, _ => true

/-- `match_filter` in `src/filter/mod.rs` lines 68-85: sender, receiver and
message predicates combined with AND. -/
def match_filter (state : Option ShardStateStuff) (filter : FilterEntry)
    (src dst : Option MsgAddressInt) (ext : FilteredMessage) : Bool :=
  let src_match := match_account_filter state filter.sender src
  let dst_match := match_account_filter state filter.receiver dst
  let event_match :=
    match filter.message with
    | some f => f.message_name == ext.name && f.message_type == ext.message_type
    | none => true
  src_match && dst_match && event_match

/-- The candidate emitted by `parse_empty_messages` for the outbound slot at
position `idx` holding hash `h` and message `m` (the record literal at
`src/filter/parser.rs` lines 127-136). -/
def mkEmptyCandidate (tx : Transaction) (idx : Nat) (h : Nat) (m : Message) :
    FilteredMessage :=
  { name := "%%EmptyOutMessage%%"
    message_hash := h
    message := m
    message_type := message_type_from m.header false
    tx := tx
    index_in_transaction := idx
    contract_name := ""
    filter_name := "" }

/-- Loop body of `EmptyMessageParser::parse_empty_messages`: walk the
outbound slots keeping the running `index_in_transaction`, fail on the
first slot whose cell cannot be read or decoded, and emit a candidate for
every message without a body. -/
def parse_empty_go (tx : Transaction)
    (slots : List (Except String (Nat × Message))) (idx : Nat) :
    Except String (List FilteredMessage) :=
  match slots with
  | [] => .ok []
  | s :: rest =>
      match s with
      | .error e => .error e
      | .ok (h, m) =>
          match parse_empty_go tx rest (idx + 1) with
          | .error e => .error e
          | .ok tail =>
              if m.has_body then .ok tail
              else .ok (mkEmptyCandidate tx idx h m :: tail)

/-- `EmptyMessageParser::parse_empty_messages` in `src/filter/parser.rs`
lines 114-145. -/
def parse_empty_messages (tx : Transaction) : Except String (List FilteredMessage) :=
  parse_empty_go tx tx.out_msgs 0

/-- The candidate emitted by `parse_raw_messages` for the inbound message
(record literal at `src/filter/parser.rs` lines 162-171). -/
def mkRawInCandidate (tx : Transaction) (h : Nat) (m : Message) : FilteredMessage :=
  { name := "%%RawBodyMessage%%"
    message_hash := h
    message := m
    message_type := message_type_from m.header true
    tx := tx
    index_in_transaction := 0
    contract_name := ""
    filter_name := "" }

/-- The candidate emitted by `parse_raw_messages` for the outbound slot at
position `idx` (record literal at `src/filter/parser.rs` lines 183-192). -/
def mkRawOutCandidate (tx : Transaction) (idx : Nat) (h : Nat) (m : Message) :
    FilteredMessage :=
  { name := "%%RawBodyMessage%%"
    message_hash := h
    message := m
    message_type := message_type_from m.header false
    tx := tx
    index_in_transaction := idx
    contract_name := ""
    filter_name := "" }

/-- Loop body of `RawMessageParser::parse_raw_messages` over the outbound
slots. -/
def parse_raw_go (tx : Transaction)
    (slots : List (Except String (Nat × Message))) (idx : Nat) :
    Except String (List FilteredMessage) :=
  match slots with
  | [] => .ok []
  | s :: rest =>
      match s with
      | .error e => .error e
      | .ok (h, m) =>
          match parse_raw_go tx rest (idx + 1) with
          | .error e => .error e
          | .ok tail => .ok (mkRawOutCandidate tx idx h m :: tail)

/-- `RawMessageParser::parse_raw_messages` in `src/filter/parser.rs`
lines 152-200: the inbound message (if present, index 0) followed by every
outbound message with ascending index. -/
def parse_raw_messages (tx : Transaction) : Except String (List FilteredMessage) :=
  match ((match tx.in_msg with
          | some im =>
              match im.read_struct with
              | .error e => .error ("Failed reading in msg: " ++ e)
              | .ok m => .ok [mkRawInCandidate tx im.hash m]
          | none => .ok []) : Except String (List FilteredMessage)) with
  | .error e => .error e
  | .ok head =>
      match parse_raw_go tx tx.out_msgs 0 with
      | .error e => .error e
      | .ok tail => .ok (head ++ tail)

/-- `InnerParser` in `src/filter/parser.rs`: the `Nekoton` variant carries
the external nekoton ABI transaction parser, embedded as an abstract
parse function. -/
inductive InnerParser where
  | Nekoton (parse_fn : Transaction → Except String (List FilteredMessage))
  | EmptyMessage
  | RawBodyMessageParser

/-- `InnerParser::parse` in `src/filter/parser.rs` lines 99-107. -/
def InnerParser.parse (p : InnerParser) (tx : Transaction) :
    Except String (List FilteredMessage) :=
  match p with
  | .Nekoton f => f tx
  | .EmptyMessage => parse_empty_messages tx
  | .RawBodyMessageParser => parse_raw_messages tx

/-- `Parser` in `src/filter/parser.rs` (the inner-parser field is named
`inner_parser` in the source; renamed `innerParser` here). -/
structure Parser where
  name : String
  filters : List FilterEntry
  innerParser : InnerParser

/-- The body of the `filter_map` closure in `filter_transaction`
(`src/filter/mod.rs` lines 100-113): take the candidate's source and
destination, find the first filter entry that matches, and on a match
clone the candidate with the parser and entry names filled in. -/
def process_candidate (state : Option ShardStateStuff) (parser : Parser)
    (ext : FilteredMessage) : Option FilteredMessage :=
  let src := ext.message.src
  let dst := ext.message.dst
  let found := parser.filters.find? (fun filter => match_filter state filter src dst ext)
  found.map (fun filter =>
    { ext with contract_name := parser.name, filter_name := filter.name })

/-- Upper bound of `chrono::NaiveDateTime::from_timestamp_opt` in seconds
(the timestamp of `chrono`'s maximal representable datetime); below it the
conversion yields a datetime, above it `None`.  `tx.now` is a `u32` so the
inputs reaching this bound-check are always in range. -/
def chronoMaxTimestamp : Nat := 8210266876799

/-- `chrono::NaiveDateTime::from_timestamp_opt(now, 0)` followed by
`.date()`, for the non-negative seconds produced by a `u32`: the resulting
UTC date as a count of days since the epoch (an `Int`, since `NaiveDate`
ranges on both sides of the epoch). -/
def date_from_timestamp_opt (secs : Nat) : Option Int :=
  if secs ≤ chronoMaxTimestamp then some ((secs : Int) / 86400) else none

/-- `filter_transaction` in `src/filter/mod.rs` lines 88-118, with the
`OnceLock` registry contents (`get_parsers()`) passed explicitly and a
start date given as days since the epoch.  Parsers whose inner parse fails
contribute nothing (`if let Ok(extracted) = ...`). -/
def filter_transaction (parsers : List Parser) (tx : Transaction)
    (state : Option ShardStateStuff) (start_date : Int) : List FilteredMessage :=
  match date_from_timestamp_opt tx.now with
  | none => []
  | some tx_date =>
      if tx_date < start_date then []
      else
        parsers.foldl (fun filtered parser =>
          match parser.innerParser.parse tx with
          | .ok extracted =>
              filtered ++ extracted.filterMap (process_candidate state parser)
          | .error _ => filtered) []

/-- `get_abi_parser` in `src/filter/parser.rs` lines 45-59 reads the ABI
file from disk and builds the nekoton transaction parser; this whole
external chain (filesystem + `ton_abi` + `nekoton_abi`) is embedded as an
abstract fallible loader from the ABI path. -/
def AbiLoader : Type := String → Except String InnerParser

/-- The per-record arm of `init_all_parsers` (`src/filter/parser.rs`
lines 64-85): `Contract` compiles the ABI through the loader; the literal
parser names `"EmptyMessage"` and `"RawMessage"` come from the source. -/
def compile_record (loader : AbiLoader) (record : FilterRecord) :
    Except String Parser :=
  match record.filter_type with
  | .Contract name abi_path =>
      match loader abi_path with
      | .error e => .error e
      | .ok inner =>
          .ok { name := name, filters := record.entries, innerParser := inner }
  | .NativeTransfer =>
      .ok { name := "EmptyMessage", filters := record.entries,
            innerParser := .EmptyMessage }
  | .AnyMessage =>
      .ok { name := "RawMessage", filters := record.entries,
            innerParser := .RawBodyMessageParser }

/-- The loop of `init_all_parsers`: compile every record in order, failing
on the first error. -/
def compile_records (loader : AbiLoader) :
    List FilterRecord → Except String (List Parser)
  | [] => .ok []
  | r :: rest =>
      match compile_record loader r with
      | .error e => .error e
      | .ok p =>
          match compile_records loader rest with
          | .error e => .error e
          | .ok ps => .ok (p :: ps)

/-- `init_all_parsers` in `src/filter/parser.rs` lines 62-89. -/
def init_all_parsers (loader : AbiLoader) (config : FilterConfig) :
    Except String (List Parser) :=
  compile_records loader config.message_filters

/-- The process-wide `static PARSERS: OnceLock<Vec<Parser>>` is embedded as
explicit state: `none` before initialization, `some v` afterwards. -/
def RegistryState : Type := Option (List Parser)

/-- `OnceLock::set`: stores the value when the cell is empty; returns an
error and leaves the cell untouched when it is already set (the error
string is the one `init_parsers` maps the failure to). -/
def once_lock_set (s : RegistryState) (v : List Parser) :
    Except String Unit × RegistryState :=
  match s with
  | none => (.ok (), some v)
  | some w => (.error "Unable to initialize parsers and handlers", some w)

/-- `init_parsers` in `src/filter/parser.rs` lines 36-42: build all
parsers, then `PARSERS.set(v)`.  A failure of `init_all_parsers` leaves
the registry untouched. -/
def init_parsers (loader : AbiLoader) (config : FilterConfig)
    (s : RegistryState) : Except String Unit × RegistryState :=
  match init_all_parsers loader config with
  | .error e => (.error e, s)
  | .ok v => once_lock_set s v

/-- `get_parsers` in `src/filter/parser.rs` lines 12-14 (`PARSERS.get()
.unwrap()`): the registry contents, defined only after initialization. -/
def get_parsers (s : RegistryState) : Option (List Parser) := s

/-- The transport state of `Producer` (`src/producer/mod.rs`,
`enum TransportInner`): the HTTP/2 variant's tokio broadcast `Sender` is
characterized by its number of active receivers at the send. -/
inductive TransportInner where
  | Http2 (receivers : Nat)
  | Stdio
  deriving DecidableEq, Repr

/-- What a send did: pushed a frame into the broadcast channel (returning
the receiver count, as `Sender::send` does) or wrote bytes to standard
output. -/
inductive SendOutcome where
  | broadcasted (receivers : Nat)
  | wrote (bytes : List Nat)
  deriving DecidableEq, Repr

/-- `tokio::sync::broadcast::Sender::send`, embedded from the tokio
documentation: the call succeeds with the number of active receivers when
at least one receiver exists (each queues the frame), and returns
`Err(SendError(value))` when there are no active receivers. -/
def broadcast_send (receivers : Nat) (_data : List Nat) : Except String Nat :=
  if receivers = 0 then .error "channel closed" else .ok receivers

/-- The `"-----\n"` marker written before each datum on stdio
(`static PREFIX` in `src/producer/mod.rs`), as bytes. -/
def stdioPre : List Nat := [45, 45, 45, 45, 45, 10]

/-- The `"\n-----\n"` marker written after each datum on stdio
(`static POSTFIX` in `src/producer/mod.rs`), as bytes. -/
def stdioPost : List Nat := [10, 45, 45, 45, 45, 45, 10]

/-- The byte sequence a stdio send builds and writes to standard output
(`src/producer/mod.rs` lines 72-76). -/
def stdio_frame (data : List Nat) : List Nat := stdioPre ++ data ++ stdioPost

/-- `Producer::send_data_sync` in `src/producer/mod.rs` lines 65-80: on
the HTTP/2 variant the source panics (`unimplemented!`), embedded as an
error; on stdio it writes the framed bytes, returned here as the value
written. -/
def send_data_sync (inner : TransportInner) (data : List Nat) :
    Except String (List Nat) :=
  match inner with
  | .Http2 _ => .error "Http producer does not support blocking send"
  | .Stdio => .ok (stdio_frame data)

/-- `Producer::send_data` in `src/producer/mod.rs` lines 56-63: HTTP/2
pushes into the broadcast channel; stdio delegates to the synchronous
path. -/
def send_data (inner : TransportInner) (data : List Nat) :
    Except String SendOutcome :=
  match inner with
  | .Http2 receivers => (broadcast_send receivers data).map .broadcasted
  | .Stdio => (send_data_sync .Stdio data).map .wrote

/-- `(len as u32).to_be_bytes()` in `write_json_with_prefix`: the four
big-endian bytes of the length truncated to 32 bits. -/
def u32_be_bytes (len : Nat) : List Nat :=
  let n := len % 2 ^ 32
  [n / 2 ^ 24 % 256, n / 2 ^ 16 % 256, n / 2 ^ 8 % 256, n % 256]

/-- Reading back a 4-byte big-endian length prefix. -/
def read_be32 (bytes : List Nat) : Nat :=
  match bytes with
  | [a, b, c, d] => ((a * 256 + b) * 256 + c) * 256 + d
  | _ => 0

/-- `write_json_with_prefix` in `src/serializer/mod.rs` lines 21-28,
applied to the byte vector `serde_json::to_vec` produced for the record
(the framing is oblivious to the JSON contents, so it is stated over the
encoded bytes): the 32-bit big-endian length prefix followed by the JSON
body. -/
def write_json_with_prefix (json_vec : List Nat) : List Nat :=
  u32_be_bytes json_vec.length ++ json_vec

/-- The enrichment performed in `BlocksHandler::transaction`
(`src/blocks_handler/mod.rs` lines 102-105): `SerializeMessage { block_id,
..msg.into() }`. -/
def enrich (block_id : Nat) (msg : FilteredMessage) : SerializeMessage :=
  { SerializeMessage.from_filtered msg with block_id := block_id }

/-- The serialization stage of `BlocksHandler::transaction`
(`src/blocks_handler/mod.rs` lines 100-112), with the active serializer
abstracted: each filtered message is enriched and serialized, and a
serialization failure is logged and replaced by the empty buffer
(`serialized.unwrap_or_default()`). -/
def serialize_filtered (serializer : SerializeMessage → Except String (List Nat))
    (block_id : Nat) (messages : List FilteredMessage) : List (List Nat) :=
  messages.map (fun msg =>
    match serializer (enrich block_id msg) with
    | .ok bytes => bytes
    | .error _ => [])

/-- `match_account` as the specification states it (spec §4.2): no
constraint passes; a constraint on a missing value fails; an address
constraint is address equality; a code-hash constraint requires the shard
state, requires the account to be found, treats every lookup or decoding
error as false, and otherwise compares the account's code hash to the
constraint's hash. -/
def match_account_spec (state : Option ShardStateStuff)
    (filter : Option AddressOrCodeHash) (value : Option MsgAddressInt) : Bool :=
  match filter, value with
  | none, _ => true
  | some _, none => false
  | some (.Address a), some v => a == v
  | some (.CodeHash h), some v =>
      match state with
      | none => false
      | some state =>
          match state.read_accounts with
          | .error _ => false
          | .ok shard_accounts =>
              match shard_accounts.account v.address with
              | .error _ => false
              | .ok none => false
              | .ok (some entry) =>
                  match entry.read_account with
                  | .error _ => false
                  | .ok acc => acc.get_code_hash == some h

/-! ## Concrete sample data (inputs for instantiating the theorems) -/

/-- A sample internal message without a body. -/
def msgEmptyBody : Message :=
  { header := .IntMsgInfo, has_body := false, src := none, dst := none }

/-- A sample external-outbound message with a body. -/
def msgWithBody : Message :=
  { header := .ExtOutMsgInfo, has_body := true, src := none, dst := none }

/-- A sample transaction: no inbound message, two decodable outbound
slots, first without and second with a body. -/
def txSample : Transaction :=
  { now := 5, in_msg := none,
    out_msgs := [.ok (1, msgEmptyBody), .ok (2, msgWithBody)],
    hash := .error "no hash" }

/-- A sample candidate message. -/
def fmSample : FilteredMessage :=
  { name := "n", message_hash := 1, message := msgEmptyBody,
    message_type := .InternalOutbound, tx := txSample,
    index_in_transaction := 0, contract_name := "", filter_name := "" }

/-- A sample raw-message parser with a non-matching first entry (its
sender constraint cannot match an absent source) and a matching second. -/
def parserSample : Parser :=
  { name := "RawMessage",
    filters :=
      [{ name := "never",
         sender := some (.Address { workchain := 0, address := 99 }),
         receiver := none, message := none },
       { name := "always", sender := none, receiver := none, message := none }],
    innerParser := .RawBodyMessageParser }

/-- A sample parser whose inner parse always fails. -/
def parserErrSample : Parser :=
  { name := "Err", filters := [], innerParser := .Nekoton (fun _ => .error "bad") }

/-! ## Helper lemmas -/

lemma list_find?_at {α : Type} (pred : α → Bool) :
    ∀ (l : List α) (i : Nat) (hi : i < l.length),
      pred (l.get ⟨i, hi⟩) = true →
      (∀ j (hj : j < l.length), j < i → pred (l.get ⟨j, hj⟩) = false) →
      l.find? pred = some (l.get ⟨i, hi⟩)
  | [], i, hi, _, _ => absurd hi (by simp)
  | a :: t, 0, _, hpred, _ => by
      simpa using List.find?_cons_of_pos t hpred
  | a :: t, i + 1, hi, hpred, hfirst => by
      have ha : pred a = false := hfirst 0 (by simp) (Nat.succ_pos i)
      rw [List.find?_cons_of_neg t (by simp [ha])]
      exact list_find?_at pred t i (by simpa using hi) hpred
        (fun j hj hji => hfirst (j + 1) (by simpa using hj) (Nat.succ_lt_succ hji))

lemma foldl_extend {α β : Type} (f : List β → α → List β) (g : α → List β)
    (hf : ∀ acc p, f acc p = acc ++ g p) :
    ∀ (l : List α) (acc : List β), l.foldl f acc = acc ++ (l.map g).flatten
  | [], acc => by simp
  | a :: t, acc => by
      rw [List.foldl_cons, hf, foldl_extend f g hf t, List.append_assoc,
        List.map_cons, List.flatten_cons]

lemma parse_empty_go_ok (tx : Transaction) :
    ∀ (pairs : List (Nat × Message)) (idx : Nat),
      parse_empty_go tx (pairs.map Except.ok) idx =
        .ok (((pairs.enumFrom idx).filter (fun p => ! p.2.2.has_body)).map
          (fun p => mkEmptyCandidate tx p.1 p.2.1 p.2.2))
  | [], _ => rfl
  | (h, m) :: rest, idx => by
      simp only [List.map_cons, parse_empty_go, parse_empty_go_ok tx rest (idx + 1),
        List.enumFrom_cons, List.filter_cons]
      by_cases hb : m.has_body <;> simp [hb]

lemma parse_raw_go_ok (tx : Transaction) :
    ∀ (pairs : List (Nat × Message)) (idx : Nat),
      parse_raw_go tx (pairs.map Except.ok) idx =
        .ok ((pairs.enumFrom idx).map (fun p => mkRawOutCandidate tx p.1 p.2.1 p.2.2))
  | [], _ => rfl
  | (h, m) :: rest, idx => by
      simp only [List.map_cons, parse_raw_go, parse_raw_go_ok tx rest (idx + 1),
        List.enumFrom_cons]

/-! ## Claims -/

/-- C1: for every transaction `T` and start date `D`, if `T`'s timestamp
cannot be converted to a date or `date(T.now)` is strictly earlier than
`D`, then `filter_transaction` returns the empty sequence, for every
optional shard state and every registry contents. -/
theorem c1_date_gate (parsers : List Parser) (tx : Transaction)
    (state : Option ShardStateStuff) (start_date : Int)
    (h : date_from_timestamp_opt tx.now = none ∨
      ∃ d, date_from_timestamp_opt tx.now = some d ∧ d < start_date) :
    filter_transaction parsers tx state start_date = [] := by
  rcases h with h | ⟨d, hd, hlt⟩
  · simp [filter_transaction, h]
  · simp [filter_transaction, hd, hlt]

/-- Witness for C1 at a concrete input: a transaction at epoch second 0
(date 0) against start date 1. -/
theorem c1_date_gate_witness :
    filter_transaction [] { now := 0, in_msg := none, out_msgs := [], hash := .error "" }
      none 1 = [] :=
  c1_date_gate _ _ _ _ (Or.inr ⟨0, by decide, by decide⟩)

/-- C4: `match_account_filter` agrees everywhere with the account-matching
relation the specification describes: no constraint passes, a constraint
on a missing value fails, an address constraint is address equality, and a
code-hash constraint is false without shard state, on a missing account or
on any lookup/decoding error, and otherwise compares the account's code
hash with the constraint's hash. -/
theorem c4_match_account_cases (state : Option ShardStateStuff)
    (filter : Option AddressOrCodeHash) (value : Option MsgAddressInt) :
    match_account_filter state filter value = match_account_spec state filter value := by
  cases filter with
  | none => rfl
  | some f =>
    cases value with
    | none => cases f <;> rfl
    | some v =>
      cases f with
      | Address a => rfl
      | CodeHash h =>
        cases state with
        | none => rfl
        | some s =>
          simp only [match_account_filter, match_account_spec, match_code_hash]
          cases hra : s.read_accounts with
          | error e => simp
          | ok sa =>
            cases hacc : sa.account v.address with
            | error e => simp [hacc]
            | ok oent =>
              cases oent with
              | none => simp [hacc]
              | some entry =>
                cases hrd : entry.read_account with
                | error e => simp [hacc, hrd]
                | ok acc =>
                  cases hch : acc.get_code_hash with
                  | none => simp [hacc, hrd, hch]
                  | some x => simp [hacc, hrd, hch]

/-- C6 counterexample: with no active receiver, the HTTP/2 send returns an
error (the broadcast channel reports `SendError`), not success. -/
theorem c6_no_receiver_counterexample :
    send_data (.Http2 0) [1] = .error "channel closed" := rfl

/-- C6 amended: the HTTP/2 asynchronous send succeeds exactly when at
least one broadcast receiver exists to queue the frame; with no receiver
it returns an error (and the frame is dropped). -/
theorem c6_send_success_iff_receivers (receivers : Nat) (data : List Nat) :
    send_data (.Http2 receivers) data =
      if receivers = 0 then .error "channel closed"
      else .ok (.broadcasted receivers) := by
  by_cases h : receivers = 0 <;> simp [send_data, broadcast_send, h, Except.map]

/-- C7 counterexample: the stdio frame for the two bytes `[0x01, 0x02]` is
not 20 bytes long (it is 15: a 6-byte opening marker, the payload, and a
7-byte closing marker). -/
theorem c7_twenty_bytes_counterexample : ¬ (stdio_frame [1, 2]).length = 20 := by
  decide

/-- C7 amended: a single stdio send of a payload writes exactly
`"-----\n" ++ payload ++ "\n-----\n"` to standard output — for the payload
`[0x01, 0x02]` exactly the 15 bytes
`"-----\n\x01\x02\n-----\n"` — and the asynchronous send on this variant
performs the same write as the synchronous one. -/
theorem c7_stdio_framing (data : List Nat) :
    send_data_sync .Stdio data = .ok (stdioPre ++ data ++ stdioPost) ∧
    send_data .Stdio data = .ok (.wrote (stdioPre ++ data ++ stdioPost)) ∧
    stdio_frame [1, 2] = [45, 45, 45, 45, 45, 10, 1, 2, 10, 45, 45, 45, 45, 45, 10] ∧
    (stdio_frame [1, 2]).length = 15 :=
  ⟨rfl, rfl, rfl, rfl⟩

/-- C9: for every JSON body the encoder produced (of representable
length), the framed output is the 4-byte big-endian length of the body
(prefix not counted) followed by the body, and reading the prefix back
recovers exactly the body bytes. -/
theorem c9_json_prefix_roundtrip (json_vec : List Nat)
    (h : json_vec.length < 2 ^ 32) :
    write_json_with_prefix json_vec = u32_be_bytes json_vec.length ++ json_vec ∧
    List.take 4 ( write_json_with_prefix json_vec) = u32_be_bytes json_vec.length ∧
    List.drop 4 ( write_json_with_prefix json_vec) = json_vec ∧
    read_be32 (List.take 4 ( write_json_with_prefix json_vec)) = json_vec.length ∧
    ( write_json_with_prefix json_vec).length = 4 + json_vec.length := by
  refine ⟨rfl, rfl, rfl, ?_, ?_⟩
  · show ((json_vec.length % 2 ^ 32 / 2 ^ 24 % 256 * 256 +
        json_vec.length % 2 ^ 32 / 2 ^ 16 % 256) * 256 +
        json_vec.length % 2 ^ 32 / 2 ^ 8 % 256) * 256 +
        json_vec.length % 2 ^ 32 % 256 = json_vec.length
    omega
  · simp [ write_json_with_prefix, u32_be_bytes]
    omega

/-- Witness for C9 at the concrete body `[65, 66]`: the prefix reads back
as 2 and the body round-trips. -/
theorem c9_json_prefix_roundtrip_witness :
    read_be32 (List.take 4 ( write_json_with_prefix [65, 66])) = 2 ∧
    List.drop 4 ( write_json_with_prefix [65, 66]) = [65, 66] :=
  ⟨(c9_json_prefix_roundtrip [65, 66] (by decide)).2.2.2.1,
   (c9_json_prefix_roundtrip [65, 66] (by decide)).2.2.1⟩

/-- C2: for every candidate a parser produced, the first filter entry (in
declared order) whose sender, receiver and message predicates all hold is
selected: the candidate is emitted once with the parser's name and that
entry's name filled in, and a candidate matched by no entry produces no
output. -/
theorem c2_first_entry_selection (state : Option ShardStateStuff) (p : Parser)
    (ext : FilteredMessage) :
    (∀ i (hi : i < p.filters.length),
      match_filter state (p.filters.get ⟨i, hi⟩) ext.message.src ext.message.dst ext = true →
      (∀ j (hj : j < p.filters.length), j < i →
        match_filter state (p.filters.get ⟨j, hj⟩) ext.message.src ext.message.dst ext = false) →
      process_candidate state p ext =
        some { ext with contract_name := p.name,
                        filter_name := (p.filters.get ⟨i, hi⟩).name }) ∧
    ((∀ f ∈ p.filters,
        match_filter state f ext.message.src ext.message.dst ext = false) →
      process_candidate state p ext = none) := by
  constructor
  · intro i hi hmatch hfirst
    have hfind := list_find?_at
      (fun filter => match_filter state filter ext.message.src ext.message.dst ext)
      p.filters i hi hmatch hfirst
    simp only [process_candidate]
    rw [hfind]
    rfl
  · intro hall
    have hnone : p.filters.find?
        (fun filter => match_filter state filter ext.message.src ext.message.dst ext) = none :=
      List.find?_eq_none.mpr (fun x hx => by simp [hall x hx])
    simp [process_candidate, hnone]

/-- Witness for C2: against a parser whose first entry cannot match (its
sender constraint faces an absent source) and whose second entry is
unconstrained, the candidate is attributed to the second entry. -/
theorem c2_first_entry_selection_witness :
    process_candidate none parserSample fmSample =
      some { fmSample with contract_name := parserSample.name,
                           filter_name := "always" } :=
  (c2_first_entry_selection none parserSample fmSample).1 1 (by decide) rfl
    (by
      intro j hj hj1
      have hj0 : j = 0 := Nat.lt_one_iff.mp hj1
      subst hj0
      rfl)

/-- C3: the `NativeTransfer` (empty-message) parser emits exactly one
candidate per outbound message without a body — never the inbound message,
every candidate carrying the sentinel name and the out-position message
type — and the `AnyMessage` (raw) parser emits the inbound message (if
present, with index 0) followed by every outbound message with its 0-based
position, so its output count is (1 if inbound present else 0) plus the
number of outbound messages. -/
theorem c3_builtin_parsers (tx : Transaction) (pairs : List (Nat × Message))
    (inL : List FilteredMessage)
    (hout : tx.out_msgs = pairs.map Except.ok)
    (hin : (tx.in_msg = none ∧ inL = []) ∨
      (∃ im m, tx.in_msg = some im ∧ im.read_struct = Except.ok m ∧
        inL = [mkRawInCandidate tx im.hash m])) :
    parse_empty_messages tx =
      .ok ((pairs.enum.filter (fun p => ! p.2.2.has_body)).map
        (fun p => mkEmptyCandidate tx p.1 p.2.1 p.2.2)) ∧
    (∀ fm ∈ (pairs.enum.filter (fun p => ! p.2.2.has_body)).map
        (fun p => mkEmptyCandidate tx p.1 p.2.1 p.2.2),
      fm.message.has_body = false ∧ fm.name = "%%EmptyOutMessage%%" ∧
      fm.message_type = message_type_from fm.message.header false) ∧
    parse_raw_messages tx =
      .ok (inL ++ pairs.enum.map (fun p => mkRawOutCandidate tx p.1 p.2.1 p.2.2)) ∧
    (inL ++ pairs.enum.map (fun p => mkRawOutCandidate tx p.1 p.2.1 p.2.2)).length =
      (if tx.in_msg.isSome then 1 else 0) + pairs.length ∧
    (∀ fm ∈ inL, fm.index_in_transaction = 0 ∧
      fm.message_type = message_type_from fm.message.header true) ∧
    (∀ i (hi : i < (pairs.enum.map
        (fun p => mkRawOutCandidate tx p.1 p.2.1 p.2.2)).length),
      ((pairs.enum.map (fun p => mkRawOutCandidate tx p.1 p.2.1 p.2.2)).get
        ⟨i, hi⟩).index_in_transaction = i) := by
  refine ⟨?_, ?_, ?_, ?_, ?_, ?_⟩
  · simp [parse_empty_messages, hout, parse_empty_go_ok, List.enum]
  · intro fm hfm
    obtain ⟨q, hq, rfl⟩ := List.mem_map.mp hfm
    have hfilter := List.mem_filter.mp hq
    refine ⟨?_, rfl, rfl⟩
    simpa using hfilter.2
  · rcases hin with ⟨hnone, rfl⟩ | ⟨im, m, hsome, hread, rfl⟩
    · simp [parse_raw_messages, hnone, hout, parse_raw_go_ok, List.enum]
    · simp [parse_raw_messages, hsome, hread, hout, parse_raw_go_ok, List.enum]
  · rcases hin with ⟨hnone, rfl⟩ | ⟨im, m, hsome, hread, rfl⟩
    · simp [hnone]
    · simp [hsome]
      omega
  · rcases hin with ⟨hnone, rfl⟩ | ⟨im, m, hsome, hread, rfl⟩
    · intro fm hfm
      simp at hfm
    · intro fm hfm
      have : fm = mkRawInCandidate tx im.hash m := by simpa using hfm
      subst this
      exact ⟨rfl, rfl⟩
  · intro i hi
    simp [List.get_eq_getElem, List.getElem_map, List.getElem_enum, mkRawOutCandidate]

/-- Witness for C3 at the sample transaction (no inbound message, one
empty-bodied and one bodied outbound message). -/
theorem c3_builtin_parsers_witness :
    parse_empty_messages txSample =
      .ok ((([(1, msgEmptyBody), (2, msgWithBody)] : List (Nat × Message)).enum.filter
          (fun p => ! p.2.2.has_body)).map
        (fun p => mkEmptyCandidate txSample p.1 p.2.1 p.2.2)) ∧
    parse_raw_messages txSample =
      .ok ([] ++ ([(1, msgEmptyBody), (2, msgWithBody)] : List (Nat × Message)).enum.map
        (fun p => mkRawOutCandidate txSample p.1 p.2.1 p.2.2)) :=
  ⟨(c3_builtin_parsers txSample [(1, msgEmptyBody), (2, msgWithBody)] []
      rfl (Or.inl ⟨rfl, rfl⟩)).1,
   (c3_builtin_parsers txSample [(1, msgEmptyBody), (2, msgWithBody)] []
      rfl (Or.inl ⟨rfl, rfl⟩)).2.2.1⟩

/-- C5: after a successful first initialization, any second `init_parsers`
call returns an error and leaves the registry unchanged, so all subsequent
reads observe the value set by the first call. -/
theorem c5_reinit_error (loader1 loader2 : AbiLoader) (cfg1 cfg2 : FilterConfig)
    (s : RegistryState)
    (hfirst : init_parsers loader1 cfg1 none = (.ok (), s)) :
    (∃ e, (init_parsers loader2 cfg2 s).1 = Except.error e) ∧
    (init_parsers loader2 cfg2 s).2 = s ∧
    get_parsers (init_parsers loader2 cfg2 s).2 = get_parsers s := by
  obtain ⟨v, rfl⟩ : ∃ v, s = some v := by
    unfold init_parsers at hfirst
    cases h1 : init_all_parsers loader1 cfg1 with
    | error e =>
        rw [h1] at hfirst
        simp at hfirst
    | ok v =>
        rw [h1] at hfirst
        simp [once_lock_set] at hfirst
        exact ⟨v, hfirst.symm⟩
  unfold init_parsers
  cases h2 : init_all_parsers loader2 cfg2 with
  | error e => exact ⟨⟨e, rfl⟩, rfl, rfl⟩
  | ok v2 => exact ⟨⟨"Unable to initialize parsers and handlers", rfl⟩, rfl, rfl⟩

/-- Witness for C5: re-initializing the registry that a successful first
call on a one-record `NativeTransfer` configuration produced. -/
theorem c5_reinit_error_witness :
    (∃ e, (init_parsers (fun _ => .error "no abi")
        { message_filters := [{ filter_type := .NativeTransfer, entries := [] }] }
        (some [{ name := "EmptyMessage", filters := [],
                 innerParser := .EmptyMessage }])).1 = Except.error e) ∧
    (init_parsers (fun _ => .error "no abi")
        { message_filters := [{ filter_type := .NativeTransfer, entries := [] }] }
        (some [{ name := "EmptyMessage", filters := [],
                 innerParser := .EmptyMessage }])).2 =
      some [{ name := "EmptyMessage", filters := [],
              innerParser := .EmptyMessage }] ∧
    get_parsers (init_parsers (fun _ => .error "no abi")
        { message_filters := [{ filter_type := .NativeTransfer, entries := [] }] }
        (some [{ name := "EmptyMessage", filters := [],
                 innerParser := .EmptyMessage }])).2 =
      get_parsers (some [{ name := "EmptyMessage", filters := [],
                           innerParser := .EmptyMessage }]) :=
  c5_reinit_error (fun _ => .error "no abi") (fun _ => .error "no abi")
    { message_filters := [{ filter_type := .NativeTransfer, entries := [] }] }
    { message_filters := [{ filter_type := .NativeTransfer, entries := [] }] }
    (some [{ name := "EmptyMessage", filters := [], innerParser := .EmptyMessage }])
    rfl

/-- C8: the per-transaction serialization stage hands the egress producer
exactly one buffer per filtered message; a message whose serialization
fails contributes the empty buffer at its position. -/
theorem c8_serialize_alignment
    (serializer : SerializeMessage → Except String (List Nat))
    (block_id : Nat) (messages : List FilteredMessage) :
    (serialize_filtered serializer block_id messages).length = messages.length ∧
    ∀ (i : Nat) (msg : FilteredMessage), messages[i]? = some msg →
      (∃ e, serializer (enrich block_id msg) = .error e) →
      (serialize_filtered serializer block_id messages)[i]? = some ([] : List Nat) := by
  constructor
  · simp [serialize_filtered]
  · intro i msg hmsg he
    obtain ⟨e, he⟩ := he
    simp [serialize_filtered, List.getElem?_map, hmsg, he]

/-- Witness for C8: a one-message list under an always-failing serializer
yields one buffer, the empty one. -/
theorem c8_serialize_alignment_witness :
    (serialize_filtered (fun _ => .error "boom") 7 [fmSample]).length = 1 ∧
    (serialize_filtered (fun _ => .error "boom") 7 [fmSample])[0]? = some ([] : List Nat) :=
  ⟨((c8_serialize_alignment (fun _ => .error "boom") 7 [fmSample]).1).trans rfl,
   (c8_serialize_alignment (fun _ => .error "boom") 7 [fmSample]).2 0 fmSample rfl
     ⟨"boom", rfl⟩⟩

/-- C10 (implicit): when the date gate passes, `filter_transaction` is the
concatenation, in registry order, of each parser's matched candidates,
where a parser whose inner parse fails contributes nothing and no error is
surfaced. -/
theorem c10_parse_error_isolation (parsers : List Parser) (tx : Transaction)
    (state : Option ShardStateStuff) (start_date : Int) (d : Int)
    (hd : date_from_timestamp_opt tx.now = some d) (hge : ¬ d < start_date) :
    filter_transaction parsers tx state start_date =
      (parsers.map (fun parser =>
        match parser.innerParser.parse tx with
        | .ok extracted => extracted.filterMap (process_candidate state parser)
        | .error _ => [])).flatten := by
  simp only [filter_transaction, hd]
  rw [if_neg hge]
  rw [foldl_extend _ (fun parser =>
      match parser.innerParser.parse tx with
      | .ok extracted => extracted.filterMap (process_candidate state parser)
      | .error _ => [])
    (fun acc p => by cases hp : p.innerParser.parse tx <;> simp [hp]) parsers []]
  simp

/-- Witness for C10: a failing nekoton parser followed by the sample raw
parser on the sample transaction. -/
theorem c10_parse_error_isolation_witness :
    filter_transaction [parserErrSample, parserSample] txSample none 0 =
      (([parserErrSample, parserSample]).map (fun parser =>
        match parser.innerParser.parse txSample with
        | .ok extracted => extracted.filterMap (process_candidate none parser)
        | .error _ => [])).flatten :=
  c10_parse_error_isolation [parserErrSample, parserSample] txSample none 0 0
    (by decide) (by decide)

end FusionProducer
